import Mathlib

/-!
Verification of the boundary-acquisition and join engine of the
universal-choropleth-tool repository, shallowly embedded in Lean 4.

Sources embedded here:
- `src/tools/alice_choropleth.py` (CLI join tool): state table, state
  normalizer, source resolver, fetch/cache layer, ZCTA spatial filter,
  derived-rate computation.
- `src/tools/local_api.py` (serving layer): state table, `norm_state`,
  `normalize_csv_key`, `compute_rates`, left merge of `/join`.
- `src/tools/prefetch_tiger.py`: retrying `download` (same retry structure
  as `download_to_temp`).

Python dictionaries are embedded as association lists in source order;
pandas NaN is `Option.none`; a raised exception is `Except.error`.
-/

namespace UCT

/-- The state reference table of `src/tools/alice_choropleth.py` lines 30-38,
in source order. -/
def STATE_ABBR_TO_FIPS : List (String × String) := [
  ("AL", "01"), ("AK", "02"), ("AZ", "04"), ("AR", "05"), ("CA", "06"),
  ("CO", "08"), ("CT", "09"), ("DE", "10"), ("DC", "11"),
  ("FL", "12"), ("GA", "13"), ("HI", "15"), ("ID", "16"), ("IL", "17"),
  ("IN", "18"), ("IA", "19"), ("KS", "20"), ("KY", "21"),
  ("LA", "22"), ("ME", "23"), ("MD", "24"), ("MA", "25"), ("MI", "26"),
  ("MN", "27"), ("MS", "28"), ("MO", "29"), ("MT", "30"),
  ("NE", "31"), ("NV", "32"), ("NH", "33"), ("NJ", "34"), ("NM", "35"),
  ("NY", "36"), ("NC", "37"), ("ND", "38"), ("OH", "39"),
  ("OK", "40"), ("OR", "41"), ("PA", "42"), ("RI", "44"), ("SC", "45"),
  ("SD", "46"), ("TN", "47"), ("TX", "48"), ("UT", "49"),
  ("VT", "50"), ("VA", "51"), ("WA", "53"), ("WV", "54"), ("WI", "55"),
  ("WY", "56"),
  ("AS", "60"), ("GU", "66"), ("MP", "69"), ("PR", "72"), ("VI", "78"),
  ("UM", "74")]

/-- The state reference table of `src/tools/local_api.py` lines 17-25,
in source order. -/
def STATE_ABBR_TO_FIPS_api : List (String × String) := [
  ("AL", "01"), ("AK", "02"), ("AZ", "04"), ("AR", "05"), ("CA", "06"),
  ("CO", "08"), ("CT", "09"), ("DE", "10"), ("DC", "11"),
  ("FL", "12"), ("GA", "13"), ("HI", "15"), ("ID", "16"), ("IL", "17"),
  ("IN", "18"), ("IA", "19"), ("KS", "20"), ("KY", "21"),
  ("LA", "22"), ("ME", "23"), ("MD", "24"), ("MA", "25"), ("MI", "26"),
  ("MN", "27"), ("MS", "28"), ("MO", "29"), ("MT", "30"),
  ("NE", "31"), ("NV", "32"), ("NH", "33"), ("NJ", "34"), ("NM", "35"),
  ("NY", "36"), ("NC", "37"), ("ND", "38"), ("OH", "39"),
  ("OK", "40"), ("OR", "41"), ("PA", "42"), ("RI", "44"), ("SC", "45"),
  ("SD", "46"), ("TN", "47"), ("TX", "48"), ("UT", "49"),
  ("VT", "50"), ("VA", "51"), ("WA", "53"), ("WV", "54"), ("WI", "55"),
  ("WY", "56"), ("AS", "60"), ("GU", "66"), ("MP", "69"),
  ("PR", "72"), ("VI", "78"), ("UM", "74")]

/-- Python `str.strip()`: drop leading and trailing whitespace. Implemented
over the character list so that it evaluates by kernel reduction. -/
def pyStrip (s : String) : String :=
  String.mk (((s.data.dropWhile Char.isWhitespace).reverse.dropWhile
    Char.isWhitespace).reverse)

/-- Python `str.upper()` for the ASCII tokens this program handles. -/
def pyUpper (s : String) : String :=
  String.mk (s.data.map Char.toUpper)

/-- Python `str.lower()` for the ASCII tokens this program handles. -/
def pyLower (s : String) : String :=
  String.mk (s.data.map Char.toLower)

/-- Test of `re.fullmatch(r"\d\x7b2\x7d", s)` (and of
`len(t) == 2 and t.isdigit()` in the serving layer): the string is exactly
two digits. -/
def isTwoDigits (s : String) : Bool :=
  s.length == 2 && s.data.all Char.isDigit

/-- `normalize_state` of `src/tools/alice_choropleth.py` lines 41-53.
Returns the `(abbreviation, fips)` pair, or an error message. The reverse
lookup `next(k for k, v in ... if v == fips)` is `find?` over the table in
source order. -/
def normalize_state (state : String) : Except String (String × String) :=
  let s := pyStrip state
  if isTwoDigits s then
    match STATE_ABBR_TO_FIPS.find? (fun p => p.2 == s) with
    | some p => .ok p
    | none => .error ("Unknown state FIPS: " ++ s)
  else
    let sUp := pyUpper s
    match STATE_ABBR_TO_FIPS.find? (fun p => p.1 == sUp) with
    | some p => .ok (sUp, p.2)
    | none => .error ("State must be 2-letter or 2-digit FIPS. Got: " ++ state)

/-- Decidable equality for `Except`, so that claims about fallible
operations can be evaluated on concrete inputs. -/
instance exceptDecidableEq {ε α : Type} [DecidableEq ε] [DecidableEq α] :
    DecidableEq (Except ε α) := fun x y =>
  match x, y with
  | .ok a, .ok b =>
    if h : a = b then .isTrue (by rw [h])
    else .isFalse (by intro hc; cases hc; exact h rfl)
  | .error a, .error b =>
    if h : a = b then .isTrue (by rw [h])
    else .isFalse (by intro hc; cases hc; exact h rfl)
  | .ok _, .error _ => .isFalse (by intro hc; cases hc)
  | .error _, .ok _ => .isFalse (by intro hc; cases hc)

/-- Errors raised (as `HTTPException`) by `norm_state` of `src/tools/local_api.py`. -/
inductive ApiError where
  | stateRequired : ApiError
  | unknownFips : String → ApiError
  | unknownState : String → ApiError
deriving DecidableEq

/-- `norm_state` of `src/tools/local_api.py` lines 43-63: the special scope
tokens `US` and the four region names are checked before the token is
uppercased; a two-digit token is reverse-looked-up; otherwise the token is
uppercased and looked up in the table. -/
def norm_state (token : String) : Except ApiError (String × String) :=
  let t := pyStrip token
  if t == "" then .error .stateRequired
  else if t == "US" then .ok ("US", "US")
  else if t ∈ ["NORTHEAST", "MIDWEST", "SOUTH", "WEST"] then .ok (t, t)
  else if isTwoDigits t then
    match STATE_ABBR_TO_FIPS_api.find? (fun p => p.2 == t) with
    | some p => .ok p
    | none => .error (.unknownFips t)
  else
    let t2 := pyUpper t
    match STATE_ABBR_TO_FIPS_api.find? (fun p => p.1 == t2) with
    | some p => .ok (t2, p.2)
    | none => .error (.unknownState token)

/-! ## Fetch & cache layer and source resolver

`download_to_temp` and `resolve_first_available` of
`src/tools/alice_choropleth.py`. The network is a parameter: the outcome of
the GET request of attempt `a` is `responses a`, and the outcome of the HEAD
probe of URL `u` at attempt `a` is `probe u a`. Each function also returns
the list of network requests it performed, so that statements about "no
network call" and about probe order can be made. -/

/-- Error taxonomy of the spec, naming the `RuntimeError`s raised by the
fetch layer and the source resolver. -/
inductive FetchError where
  | OfflineCacheMiss : FetchError
  | NoSourceAvailable : FetchError
  | OfflineFetchDenied : FetchError
  | FetchFailed : FetchError
deriving DecidableEq

/-- Outcome of one HTTP GET: a connection error, or a response with a
status code. -/
inductive HttpOutcome where
  | connError : HttpOutcome
  | status : Nat → HttpOutcome
deriving DecidableEq

/-- The module-level configuration of `src/tools/alice_choropleth.py`
(`OFFLINE`, `CACHE_DIR`, `MAX_RETRIES`), plus the set of basenames present
in the cache directory. -/
structure NetConfig where
  offline : Bool
  cacheDir : Option String
  cached : List String
  maxRetries : Nat

/-- `os.path.basename(url)`: the part after the last slash. -/
def basename (url : String) : String :=
  String.mk ((url.data.reverse.takeWhile (fun c => !(c == '/'))).reverse)

/-- `_cache_path_for(url)` combined with `os.path.exists`: true when a cache
directory is configured and a file with the URL's basename is in it. -/
def cachePathExists (cfg : NetConfig) (url : String) : Bool :=
  cfg.cacheDir.isSome && cfg.cached.contains (basename url)

/-- The explicit transient-status check of `download_to_temp`
(`alice_choropleth.py` line 160) and `download` (`prefetch_tiger.py` line 31). -/
def isTransientStatus (c : Nat) : Bool :=
  c ∈ [429, 500, 502, 503, 504]

/-- Whether one GET attempt of `download_to_temp` fails: a connection error
fails, a transient status is raised explicitly, and `resp.raise_for_status()`
raises on every status in 400..599. All of these are caught by the same
`except Exception` and so are all retried. -/
def attemptFails : HttpOutcome → Bool
  | .connError => true
  | .status c => isTransientStatus c || (decide (400 ≤ c) && decide (c < 600))

/-- The retry loop of `download_to_temp` (lines 156-169): `attempt` is the
current attempt number, `remaining` the number of attempts left
(`maxRetries - attempt + 1` at entry). One GET per iteration; a successful
attempt breaks out with its attempt number; the exception of the last
attempt is re-raised. The second component counts the GET requests
performed. -/
def fetchLoop (responses : Nat → HttpOutcome) :
    Nat → Nat → Except FetchError Nat × Nat
  | _, 0 => (.error .FetchFailed, 0)
  | attempt, r + 1 =>
    if !attemptFails (responses attempt) then (.ok attempt, 1)
    else if r = 0 then (.error .FetchFailed, 1)
    else
      let rest := fetchLoop responses (attempt + 1) r
      (rest.1, rest.2 + 1)

/-- Result of `download_to_temp`: the cached file, or a fresh fetch
(recording which attempt succeeded; the temp-file/cache install is elided). -/
inductive DownloadResult where
  | cachedFile : DownloadResult
  | fetched : Nat → DownloadResult
deriving DecidableEq

/-- `download_to_temp` of `src/tools/alice_choropleth.py` lines 148-181:
return the cache path when present; in offline mode fail before any request;
otherwise GET with up to `maxRetries` attempts, raising after the last.
The second component is the number of GET requests performed. -/
def download_to_temp (cfg : NetConfig) (responses : Nat → HttpOutcome)
    (url : String) : Except FetchError DownloadResult × Nat :=
  if cachePathExists cfg url then (.ok .cachedFile, 0)
  else if cfg.offline then (.error .OfflineFetchDenied, 0)
  else
    match fetchLoop responses 1 cfg.maxRetries with
    | (.ok a, k) => (.ok (.fetched a), k)
    | (.error e, k) => (.error e, k)

/-- The per-candidate probe loop of `resolve_first_available` (lines
105-114): one HEAD per iteration, stopping at the first success. Returns
the successful attempt number (if any) and the trace of probes performed. -/
def probeLoop (probe : String → Nat → Bool) (u : String) :
    Nat → Nat → Option Nat × List (String × Nat)
  | _, 0 => (none, [])
  | attempt, r + 1 =>
    if probe u attempt then (some attempt, [(u, attempt)])
    else
      let rest := probeLoop probe u (attempt + 1) r
      (rest.1, (u, attempt) :: rest.2)

/-- The full probe trace of one unreachable candidate: attempts
`1..maxRetries` against it. -/
def fullProbes (maxRetries : Nat) (u : String) : List (String × Nat) :=
  (List.range maxRetries).map (fun j => (u, j + 1))

/-- The probe trace of a candidate that succeeds at attempt `a`: attempts
`1..a` against it. -/
def probesUpTo (a : Nat) (u : String) : List (String × Nat) :=
  (List.range a).map (fun j => (u, j + 1))

/-- The online loop of `resolve_first_available`: for each candidate in
order, up to `maxRetries` HEAD probes, returning the candidate at the first
success; `NoSourceAvailable` when every candidate exhausts its attempts.
Also returns the trace of probes performed, in order. -/
def resolveOnline (probe : String → Nat → Bool) (maxRetries : Nat) :
    List String → Except FetchError String × List (String × Nat)
  | [] => (.error .NoSourceAvailable, [])
  | u :: rest =>
    match probeLoop probe u 1 maxRetries with
    | (some _, tr) => (.ok u, tr)
    | (none, tr) =>
      let r := resolveOnline probe maxRetries rest
      (r.1, tr ++ r.2)

/-- `resolve_first_available` of `src/tools/alice_choropleth.py` lines
96-115: only when offline mode is on AND a cache directory is configured
(`if OFFLINE and CACHE_DIR`) does it return the first cached candidate
without touching the network; otherwise it runs the online probe loop. -/
def resolve_first_available (cfg : NetConfig) (probe : String → Nat → Bool)
    (urls : List String) : Except FetchError String × List (String × Nat) :=
  if cfg.offline && cfg.cacheDir.isSome then
    match urls.find? (fun u => cachePathExists cfg u) with
    | some u => (.ok u, [])
    | none => (.error .OfflineCacheMiss, [])
  else
    resolveOnline probe cfg.maxRetries urls

/-! ## Key normalizer

`normalize_csv_key` of `src/tools/local_api.py` lines 195-222, at the level
of a single raw CSV value. The pandas chain is
`s.str.extract(r"(\d+)")[0].str.zfill(w).fillna('')`. -/

/-- `str.extract(r"(\d+)")` on one value: the first maximal run of digits,
or `none` (NaN) when the value contains no digit. -/
def extractDigits (s : String) : Option String :=
  match s.data.dropWhile (fun ch => !ch.isDigit) with
  | [] => none
  | l => some (String.mk (l.takeWhile Char.isDigit))

/-- Python `str.zfill(w)` on a digit string: left-pad with `'0'` to width
`w` (no-op when already at least `w` long). -/
def zfill (w : Nat) (s : String) : String :=
  String.mk (List.replicate (w - s.length) '0') ++ s

/-- The fixed join-key width per geography level
(`local_api.py` lines 214-220); `none` for the fall-through branch. -/
def levelWidth : String → Option Nat
  | "state" => some 2
  | "county" => some 5
  | "place" => some 7
  | "subcounty" => some 10
  | "tract" => some 11
  | "bg" => some 12
  | "zcta" => some 5
  | _ => none

/-- `normalize_csv_key` applied to one raw value: extract the first digit
run, zero-pad to the level's width, and turn NaN into the empty string; the
fall-through branch keeps the raw string. -/
def normalizeKeyValue (level : String) (v : String) : String :=
  match levelWidth level with
  | some w => ((extractDigits v).map (zfill w)).getD ""
  | none => v

/-! ## Join engine

The left merge of `/join` (`local_api.py` lines 316-320) and of
`prepare_place` (`alice_choropleth.py` line 206). A geometry table is a list
of rows `(join key, payload)`; a CSV table is a list of rows
`(join key, attribute values)` where a value `none` is NaN. Pandas
`merge(how='left')` emits, for each left row in order, one output row per
matching right row (in right order), or a single all-NaN-extended row when
there is no match. -/

/-- `merge(how='left')` on the derived key. `ncols` is the number of CSV
attribute columns, used to fill an unmatched row with NaN. -/
def mergeLeft {γ : Type} (ncols : Nat) (g : List (String × γ))
    (c : List (String × List (Option ℚ))) :
    List ((String × γ) × List (Option ℚ)) :=
  g.flatMap (fun gr =>
    match c.filter (fun r => r.1 == gr.1) with
    | [] => [(gr, List.replicate ncols none)]
    | ms => ms.map (fun m => (gr, m.2)))

/-! ## Derived rates

`compute_rates` of `src/tools/local_api.py` lines 225-232
(`compute_metrics` of `alice_choropleth.py` lines 261-272 is the same
computation). A table is a list of named columns; a cell `none` is NaN. -/

/-- One column of a dataframe; `none` is NaN. -/
abbrev Col := List (Option ℚ)

/-- A dataframe as an ordered list of named columns. -/
abbrev Table := List (String × Col)

/-- Column lookup, `df[name]`. -/
def getCol (df : Table) (n : String) : Option Col :=
  (df.find? (fun p => p.1 == n)).map Prod.snd

/-- `name in df.columns`. -/
def hasCol (df : Table) (n : String) : Bool :=
  (df.find? (fun p => p.1 == n)).isSome

/-- `df[name] = col`: overwrite the column in place, or append it. -/
def setCol : Table → String → Col → Table
  | [], n, v => [(n, v)]
  | p :: t, n, v => if p.1 == n then (n, v) :: t else p :: setCol t n v

/-- Elementwise NaN-propagating addition
(`df['Poverty Households'] + df['ALICE Households']`). -/
def addOpt : Option ℚ → Option ℚ → Option ℚ
  | some x, some y => some (x + y)
  | _, _ => none

/-- One cell of `(num / hh).where(hh > 0)`: the quotient when the household
count is a value strictly greater than zero, NaN otherwise. -/
def divWherePos (num : Option ℚ) (den : Option ℚ) : Option ℚ :=
  match den with
  | some d => if 0 < d then num.map (fun x => x / d) else none
  | none => none

/-- `compute_rates`: when all of `Households`, `Poverty Households` and
`ALICE Households` are present (`if all(c in df.columns for c in needed)`),
add the three rate columns; otherwise leave the table untouched. The `getD
[]` defaults never fire because the guard ensures each column is present. -/
def compute_rates (df : Table) : Table :=
  if hasCol df "Households" && hasCol df "Poverty Households"
      && hasCol df "ALICE Households" then
    let hh := (getCol df "Households").getD []
    let pov := (getCol df "Poverty Households").getD []
    let al := (getCol df "ALICE Households").getD []
    let below := List.zipWith addOpt pov al
    let df1 := setCol df "Below_ALICE_Rate" (List.zipWith divWherePos below hh)
    let df2 := setCol df1 "Poverty_Rate" (List.zipWith divWherePos pov hh)
    setCol df2 "ALICE_Rate" (List.zipWith divWherePos al hh)
  else df

/-! ## Best-effort post-processing

The ZCTA spatial-containment filter of `prepare_zcta`
(`alice_choropleth.py` lines 246-256) and the geometry simplification of
`/join` (`local_api.py` lines 322-324) both sit in a bare
`try/except: pass`. Their fallible sub-operations (loading the state
layer, `values[0]`, shapely's `centroid.within`, `simplify`) are
parameters returning `Except`. -/

/-- Monadic filter: `merged[merged.geometry.centroid.within(state_poly)]`,
where evaluating the predicate on any row may raise. -/
def filterWithinM {ρ ε : Type} (within : ρ → Except ε Bool) :
    List ρ → Except ε (List ρ)
  | [] => .ok []
  | r :: t => do
    let b ← within r
    let rest ← filterWithinM within t
    pure (if b then r :: rest else rest)

/-- The body of the `try` block of `prepare_zcta`: load the national state
layer, take the polygon of the requested state (`values[0]` raises when the
selection is empty), and keep the rows whose centroid lies within it. -/
def spatialFilterAttempt {ρ π ε : Type} (loadStates : Except ε (List (String × π)))
    (abbr : String) (within : ρ → π → Except ε Bool) (ixErr : ε)
    (merged : List ρ) : Except ε (List ρ) := do
  let states ← loadStates
  match (states.filter (fun p => p.1 == abbr)).head? with
  | none => throw ixErr
  | some p => filterWithinM (fun r => within r p.2) merged

/-- The whole filter step of `prepare_zcta`: any exception from the attempt
is swallowed and the unfiltered table is returned. -/
def prepare_zcta_filter {ρ π ε : Type} (loadStates : Except ε (List (String × π)))
    (abbr : String) (within : ρ → π → Except ε Bool) (ixErr : ε)
    (merged : List ρ) : List ρ :=
  match spatialFilterAttempt loadStates abbr within ixErr merged with
  | .ok res => res
  | .error _ => merged

/-- `mg.geometry.simplify(tol, preserve_topology=True)` over all rows: the
column assignment succeeds only if every row simplifies. -/
def simplifyAllM {σ ε : Type} (simplifyGeom : σ → Except ε σ) :
    List σ → Except ε (List σ)
  | [] => .ok []
  | r :: t => do
    let r2 ← simplifyGeom r
    let t2 ← simplifyAllM simplifyGeom t
    pure (r2 :: t2)

/-- The simplification step of `/join` and of the CLI `main`: any exception
is swallowed and the unsimplified rows are returned. -/
def trySimplify {σ ε : Type} (simplifyGeom : σ → Except ε σ)
    (rows : List σ) : List σ :=
  match simplifyAllM simplifyGeom rows with
  | .ok res => res
  | .error _ => rows

/-! ## Helper lemmas -/

/-- In an association list with pairwise-distinct keys, two entries with the
same key are the same entry. -/
theorem assoc_fst_unique {α β : Type} (l : List (α × β))
    (hnd : (l.map Prod.fst).Nodup) :
    ∀ p ∈ l, ∀ q ∈ l, p.1 = q.1 → p = q := by
  induction l with
  | nil => intro p hp; cases hp
  | cons x t ih =>
    rw [List.map_cons, List.nodup_cons] at hnd
    intro p hp q hq hpq
    rcases List.mem_cons.mp hp with rfl | hp'
    · rcases List.mem_cons.mp hq with rfl | hq'
      · rfl
      · exact absurd (by rw [hpq]; exact List.mem_map_of_mem Prod.fst hq') hnd.1
    · rcases List.mem_cons.mp hq with rfl | hq'
      · exact absurd (by rw [← hpq]; exact List.mem_map_of_mem Prod.fst hp') hnd.1
      · exact ih hnd.2 p hp' q hq' hpq

/-- In an association list with pairwise-distinct values, two entries with
the same value are the same entry. -/
theorem assoc_snd_unique {α β : Type} (l : List (α × β))
    (hnd : (l.map Prod.snd).Nodup) :
    ∀ p ∈ l, ∀ q ∈ l, p.2 = q.2 → p = q := by
  induction l with
  | nil => intro p hp; cases hp
  | cons x t ih =>
    rw [List.map_cons, List.nodup_cons] at hnd
    intro p hp q hq hpq
    rcases List.mem_cons.mp hp with rfl | hp'
    · rcases List.mem_cons.mp hq with rfl | hq'
      · rfl
      · exact absurd (by rw [hpq]; exact List.mem_map_of_mem Prod.snd hq') hnd.1
    · rcases List.mem_cons.mp hq with rfl | hq'
      · exact absurd (by rw [← hpq]; exact List.mem_map_of_mem Prod.snd hp') hnd.1
      · exact ih hnd.2 p hp' q hq' hpq

/-! ## Claims about the state resolver (C8, C9, C10) -/

/-- C8: for every two-letter token present in the state reference table,
the state resolver returns that token's two-digit numeric code from the
table, and resolving that numeric code returns the original two-letter
token (round-trip). -/
theorem state_resolver_roundtrip :
    ∀ p ∈ STATE_ABBR_TO_FIPS,
      normalize_state p.1 = .ok p ∧ normalize_state p.2 = .ok p := by decide

theorem state_resolver_roundtrip_witness :
    normalize_state "FL" = .ok ("FL", "12") ∧
      normalize_state "12" = .ok ("FL", "12") :=
  state_resolver_roundtrip ("FL", "12") (by decide)

/-- C9 counterexample: the fixed state reference table has 57 entries, not
56 as the claim states. -/
theorem state_table_size_counterexample :
    STATE_ABBR_TO_FIPS.length = 57 ∧ STATE_ABBR_TO_FIPS.length ≠ 56 := by
  decide

/-- C9 (amended to 57 entries): the state reference table has exactly 57
entries, the serving layer's copy is identical, and every StateIdentity
produced by the resolver is an entry of the table that is the unique entry
with its abbreviation and the unique entry with its numeric code. -/
theorem state_table_entry_unique (s a f : String)
    (h : normalize_state s = .ok (a, f)) :
    STATE_ABBR_TO_FIPS.length = 57 ∧
    STATE_ABBR_TO_FIPS_api = STATE_ABBR_TO_FIPS ∧
    (a, f) ∈ STATE_ABBR_TO_FIPS ∧
    (∀ q ∈ STATE_ABBR_TO_FIPS, q.1 = a → q = (a, f)) ∧
    (∀ q ∈ STATE_ABBR_TO_FIPS, q.2 = f → q = (a, f)) := by
  have hmem : (a, f) ∈ STATE_ABBR_TO_FIPS := by
    simp only [normalize_state] at h
    split at h
    · split at h
      · rename_i p hfind
        injection h with h2
        exact h2 ▸ List.mem_of_find?_eq_some hfind
      · cases h
    · split at h
      · rename_i p hfind
        injection h with h2
        have hkey : p.1 = pyUpper (pyStrip s) := by
          simpa using List.find?_some hfind
        have hp := List.mem_of_find?_eq_some hfind
        rw [← h2, ← hkey]
        exact hp
      · cases h
  refine ⟨by decide, by decide, hmem, ?_, ?_⟩
  · intro q hq hq1
    exact assoc_fst_unique STATE_ABBR_TO_FIPS (by decide) q hq (a, f) hmem hq1
  · intro q hq hq2
    exact assoc_snd_unique STATE_ABBR_TO_FIPS (by decide) q hq (a, f) hmem hq2

theorem state_table_entry_unique_witness :
    ("FL", "12") ∈ STATE_ABBR_TO_FIPS :=
  (state_table_entry_unique "FL" "FL" "12" (by decide)).2.2.1

/-- C10: the serving-layer state resolver accepts ordinary state tokens
case-insensitively (lowercase `fl` resolves to `(FL, 12)`), but the scope
tokens `US`, `NORTHEAST`, `MIDWEST`, `SOUTH`, `WEST` only in exact
uppercase: lowercase `us` or `northeast` is rejected with an unknown-state
error instead of selecting a national or regional scope. -/
theorem norm_state_scope_case_sensitive :
    norm_state "fl" = .ok ("FL", "12") ∧
    norm_state "us" = .error (.unknownState "us") ∧
    norm_state "northeast" = .error (.unknownState "northeast") ∧
    norm_state "US" = .ok ("US", "US") ∧
    (∀ p ∈ STATE_ABBR_TO_FIPS_api, norm_state (pyLower p.1) = .ok p) ∧
    (∀ r ∈ ["NORTHEAST", "MIDWEST", "SOUTH", "WEST"],
      norm_state r = .ok (r, r) ∧
      norm_state (pyLower r) = .error (.unknownState (pyLower r))) := by
  decide

theorem norm_state_scope_case_sensitive_witness :
    norm_state (pyLower "FL") = .ok ("FL", "12") :=
  norm_state_scope_case_sensitive.2.2.2.2.1 ("FL", "12") (by decide)

/-! ## Claims about the fetch layer (C1) -/

/-- When every attempt in the window fails, the retry loop performs all of
them and re-raises after the last one. -/
theorem fetchLoop_all_fail (responses : Nat → HttpOutcome) :
    ∀ rem att, 1 ≤ rem →
      (∀ j, j < rem → attemptFails (responses (att + j)) = true) →
      fetchLoop responses att rem = (.error .FetchFailed, rem) := by
  intro rem
  induction rem with
  | zero => intro att h; omega
  | succ r ih =>
    intro att _ hfail
    have h0 : attemptFails (responses att) = true := by
      simpa using hfail 0 (Nat.succ_pos r)
    by_cases hr : r = 0
    · subst hr
      simp [fetchLoop, h0]
    · have hrest := ih (att + 1) (Nat.one_le_iff_ne_zero.mpr hr)
        (fun j hj => by
          have h2 : att + 1 + j = att + (j + 1) := by omega
          rw [h2]; exact hfail (j + 1) (by omega))
      simp [fetchLoop, h0, hr, hrest]

/-- The retry loop returns the response of the first successful attempt,
having performed exactly that many requests. -/
theorem fetchLoop_first_success (responses : Nat → HttpOutcome) :
    ∀ rem att k, k < rem →
      attemptFails (responses (att + k)) = false →
      (∀ j, j < k → attemptFails (responses (att + j)) = true) →
      fetchLoop responses att rem = (.ok (att + k), k + 1) := by
  intro rem
  induction rem with
  | zero => intro att k hk; omega
  | succ r ih =>
    intro att k hk hsucc hfail
    cases k with
    | zero =>
      have h0 : attemptFails (responses att) = false := by simpa using hsucc
      simp [fetchLoop, h0]
    | succ k2 =>
      have h0 : attemptFails (responses att) = true := by
        simpa using hfail 0 (Nat.succ_pos k2)
      have hr : r ≠ 0 := by omega
      have hrest := ih (att + 1) k2 (by omega)
        (by
          have h2 : att + 1 + k2 = att + (k2 + 1) := by omega
          rw [h2]; exact hsucc)
        (fun j hj => by
          have h2 : att + 1 + j = att + (j + 1) := by omega
          rw [h2]; exact hfail (j + 1) (by omega))
      have hfin : att + 1 + k2 = att + (k2 + 1) := by omega
      simp [fetchLoop, h0, hr, hrest, hfin]

/-- C1 counterexample: a plain 404 (neither transient nor a connection
error) is NOT fatal-immediate: with the default retry limit 6 the fetch
layer issues all 6 GET requests before surfacing the failure. -/
theorem fetch_404_retried_counterexample :
    download_to_temp ⟨false, none, [], 6⟩ (fun _ => .status 404)
        "https://www2.census.gov/geo/tiger/GENZ2023/shp/cb_2023_us_place_500k.zip"
      = (.error .FetchFailed, 6) ∧
    (download_to_temp ⟨false, none, [], 6⟩ (fun _ => .status 404)
        "https://www2.census.gov/geo/tiger/GENZ2023/shp/cb_2023_us_place_500k.zip").2
      ≠ 1 := by
  decide

/-- C1 (amended): for every fetch of a URL not already in the cache with
offline mode off, EVERY failing attempt — connection error, transient
status 429/500/502/503/504, or any other non-success status such as 404 —
is retried up to the retry limit, after which FetchFailed is surfaced with
exactly maxRetries requests performed; when some attempt succeeds, the
first successful attempt's response is used. No non-success status fails
immediately. -/
theorem download_retries_every_failure (cfg : NetConfig)
    (responses : Nat → HttpOutcome) (url : String)
    (hc : cachePathExists cfg url = false) (hoff : cfg.offline = false)
    (hmax : 1 ≤ cfg.maxRetries) :
    ((∀ j, j < cfg.maxRetries → attemptFails (responses (j + 1)) = true) →
      download_to_temp cfg responses url
        = (.error .FetchFailed, cfg.maxRetries)) ∧
    (∀ k, k < cfg.maxRetries → attemptFails (responses (k + 1)) = false →
      (∀ j, j < k → attemptFails (responses (j + 1)) = true) →
      download_to_temp cfg responses url = (.ok (.fetched (k + 1)), k + 1)) := by
  constructor
  · intro hfail
    have hl := fetchLoop_all_fail responses cfg.maxRetries 1 hmax
      (fun j hj => by
        have h2 : 1 + j = j + 1 := by omega
        rw [h2]; exact hfail j hj)
    simp [download_to_temp, hc, hoff, hl]
  · intro k hk hsucc hfail
    have hl := fetchLoop_first_success responses cfg.maxRetries 1 k hk
      (by
        have h2 : 1 + k = k + 1 := by omega
        rw [h2]; exact hsucc)
      (fun j hj => by
        have h2 : 1 + j = j + 1 := by omega
        rw [h2]; exact hfail j hj)
    have h2 : 1 + k = k + 1 := by omega
    rw [h2] at hl
    simp [download_to_temp, hc, hoff, hl]

theorem download_retries_every_failure_witness :
    download_to_temp ⟨false, none, [], 2⟩
        (fun a => if a = 1 then .status 503 else .status 200) "https://e/x.zip"
      = (.ok (.fetched 2), 2) :=
  (download_retries_every_failure ⟨false, none, [], 2⟩
    (fun a => if a = 1 then .status 503 else .status 200) "https://e/x.zip"
    (by decide) rfl (by decide)).2 1 (by decide) (by decide)
    (fun j hj => by interval_cases j; decide)

/-! ## Claims about the source resolver (C5, C6) -/

/-- Shifting the head off a probe-trace window. -/
theorem range_map_pair_shift (u : String) (att n : Nat) :
    (List.range (n + 1)).map (fun j => (u, att + j))
      = (u, att) :: (List.range n).map (fun j => (u, att + 1 + j)) := by
  rw [List.range_succ_eq_map, List.map_cons, List.map_map]
  refine congrArg₂ List.cons rfl ?_
  refine List.map_congr_left (fun j _ => ?_)
  exact congrArg (fun m => (u, m)) (by omega)

/-- When every probe of one candidate fails, the per-candidate loop probes
it on every attempt of the window and reports no success. -/
theorem probeLoop_all_fail (probe : String → Nat → Bool) (u : String) :
    ∀ rem att, (∀ j, j < rem → probe u (att + j) = false) →
      probeLoop probe u att rem
        = (none, (List.range rem).map (fun j => (u, att + j))) := by
  intro rem
  induction rem with
  | zero => intro att _; simp [probeLoop]
  | succ r ih =>
    intro att hfail
    have h0 : probe u att = false := by simpa using hfail 0 (Nat.succ_pos r)
    have hrest := ih (att + 1) (fun j hj => by
      have h2 : att + 1 + j = att + (j + 1) := by omega
      rw [h2]; exact hfail (j + 1) (by omega))
    rw [range_map_pair_shift]
    simp [probeLoop, h0, hrest]

/-- The per-candidate loop stops at the first successful probe, having
probed exactly the attempts up to it. -/
theorem probeLoop_first_success (probe : String → Nat → Bool) (u : String) :
    ∀ rem att k, k < rem → probe u (att + k) = true →
      (∀ j, j < k → probe u (att + j) = false) →
      probeLoop probe u att rem
        = (some (att + k), (List.range (k + 1)).map (fun j => (u, att + j))) := by
  intro rem
  induction rem with
  | zero => intro att k hk; omega
  | succ r ih =>
    intro att k hk hsucc hfail
    cases k with
    | zero =>
      have h0 : probe u att = true := by simpa using hsucc
      simp [probeLoop, h0, range_map_pair_shift]
    | succ k2 =>
      have h0 : probe u att = false := by
        simpa using hfail 0 (Nat.succ_pos k2)
      have hrest := ih (att + 1) k2 (by omega)
        (by
          have h2 : att + 1 + k2 = att + (k2 + 1) := by omega
          rw [h2]; exact hsucc)
        (fun j hj => by
          have h2 : att + 1 + j = att + (j + 1) := by omega
          rw [h2]; exact hfail (j + 1) (by omega))
      have hval : att + 1 + k2 = att + (k2 + 1) := by omega
      rw [range_map_pair_shift]
      simp [probeLoop, h0, hrest, hval]

/-- When no candidate is reachable within the retry budget, the online loop
exhausts every candidate's attempts in list order and fails. -/
theorem resolveOnline_all_unreachable (probe : String → Nat → Bool)
    (maxR : Nat) :
    ∀ urls, (∀ u ∈ urls, ∀ j, j < maxR → probe u (j + 1) = false) →
      resolveOnline probe maxR urls
        = (.error .NoSourceAvailable, urls.flatMap (fullProbes maxR)) := by
  intro urls
  induction urls with
  | nil => intro _; simp [resolveOnline]
  | cons u rest ih =>
    intro hall
    have hu := probeLoop_all_fail probe u maxR 1 (fun j hj => by
      have h2 : 1 + j = j + 1 := by omega
      rw [h2]; exact hall u (List.mem_cons_self u rest) j hj)
    have htr : (List.range maxR).map (fun j => (u, 1 + j)) = fullProbes maxR u := by
      refine List.map_congr_left (fun j _ => ?_)
      exact congrArg (fun m => (u, m)) (by omega)
    rw [htr] at hu
    have hrest := ih (fun v hv => hall v (List.mem_cons_of_mem u hv))
    simp [resolveOnline, hu, hrest]

/-- The online loop returns the first reachable candidate, after exhausting
every earlier candidate's window and probing the winner up to its first
success; later candidates are never probed. -/
theorem resolveOnline_first_reachable (probe : String → Nat → Bool)
    (maxR : Nat) :
    ∀ pre u post k,
      (∀ v ∈ pre, ∀ j, j < maxR → probe v (j + 1) = false) →
      k < maxR → probe u (k + 1) = true →
      (∀ j, j < k → probe u (j + 1) = false) →
      resolveOnline probe maxR (pre ++ u :: post)
        = (.ok u, pre.flatMap (fullProbes maxR) ++ probesUpTo (k + 1) u) := by
  intro pre
  induction pre with
  | nil =>
    intro u post k _ hk hsucc hfail
    have hu := probeLoop_first_success probe u maxR 1 k hk
      (by
        have h2 : 1 + k = k + 1 := by omega
        rw [h2]; exact hsucc)
      (fun j hj => by
        have h2 : 1 + j = j + 1 := by omega
        rw [h2]; exact hfail j hj)
    have htr : (List.range (k + 1)).map (fun j => (u, 1 + j)) = probesUpTo (k + 1) u := by
      refine List.map_congr_left (fun j _ => ?_)
      exact congrArg (fun m => (u, m)) (by omega)
    have hval : 1 + k = k + 1 := by omega
    rw [htr, hval] at hu
    simp [resolveOnline, hu]
  | cons v t ih =>
    intro u post k hpre hk hsucc hfail
    have hv := probeLoop_all_fail probe v maxR 1 (fun j hj => by
      have h2 : 1 + j = j + 1 := by omega
      rw [h2]; exact hpre v (List.mem_cons_self v t) j hj)
    have htr : (List.range maxR).map (fun j => (v, 1 + j)) = fullProbes maxR v := by
      refine List.map_congr_left (fun j _ => ?_)
      exact congrArg (fun m => (v, m)) (by omega)
    rw [htr] at hv
    have hrest := ih u post k (fun w hw => hpre w (List.mem_cons_of_mem v hw))
      hk hsucc hfail
    simp [resolveOnline, hv, hrest]

/-- C6: the source resolver probes candidates strictly in list order,
returns the first candidate with a successful probe (never a later one
while an earlier one is reachable), moves to a later candidate only after
the earlier one exhausts all its attempts, and fails with NoSourceAvailable
when every candidate exhausts all retries. The probe trace makes the order
explicit. -/
theorem resolver_strict_order (cfg : NetConfig) (probe : String → Nat → Bool)
    (hnotoff : (cfg.offline && cfg.cacheDir.isSome) = false) :
    (∀ urls, (∀ u ∈ urls, ∀ j, j < cfg.maxRetries → probe u (j + 1) = false) →
      resolve_first_available cfg probe urls
        = (.error .NoSourceAvailable, urls.flatMap (fullProbes cfg.maxRetries))) ∧
    (∀ pre u post k,
      (∀ v ∈ pre, ∀ j, j < cfg.maxRetries → probe v (j + 1) = false) →
      k < cfg.maxRetries → probe u (k + 1) = true →
      (∀ j, j < k → probe u (j + 1) = false) →
      resolve_first_available cfg probe (pre ++ u :: post)
        = (.ok u, pre.flatMap (fullProbes cfg.maxRetries) ++ probesUpTo (k + 1) u)) := by
  constructor
  · intro urls hall
    simp only [resolve_first_available, hnotoff, Bool.false_eq_true, if_false]
    exact resolveOnline_all_unreachable probe cfg.maxRetries urls hall
  · intro pre u post k hpre hk hsucc hfail
    simp only [resolve_first_available, hnotoff, Bool.false_eq_true, if_false]
    exact resolveOnline_first_reachable probe cfg.maxRetries pre u post k
      hpre hk hsucc hfail

theorem resolver_strict_order_witness :
    resolve_first_available ⟨false, none, [], 2⟩ (fun u _ => u == "u2")
        ["u1", "u2"]
      = (.ok "u2", [("u1", 1), ("u1", 2), ("u2", 1)]) :=
  (resolver_strict_order ⟨false, none, [], 2⟩ (fun u _ => u == "u2") rfl).2
    ["u1"] "u2" [] 0 (by decide) (by decide) (by decide) (by decide)

/-- Element of an append-with-hole list: first match wins. -/
theorem find?_append_first {α : Type} (p : α → Bool) (pre post : List α)
    (x : α) (hpre : ∀ v ∈ pre, p v = false) (hx : p x = true) :
    (pre ++ x :: post).find? p = some x := by
  induction pre with
  | nil => simp [List.find?_cons, hx]
  | cons y t ih =>
    have hy : p y = false := hpre y (List.mem_cons_self y t)
    simp [List.find?_cons, hy,
      ih (fun v hv => hpre v (List.mem_cons_of_mem y hv))]

/-- C5 counterexample: offline mode enabled but no cache directory
configured — `resolve_first_available` takes the ONLINE path (the offline
branch requires both `OFFLINE` and `CACHE_DIR`) and performs a network
probe, so "no component ever makes a network call in offline mode" is
false on the code. -/
theorem offline_still_probes_counterexample :
    resolve_first_available ⟨true, none, [], 6⟩ (fun _ _ => true)
        ["https://www2.census.gov/geo/tiger/GENZ2023/shp/cb_2023_us_zcta520_500k.zip"]
      = (.ok "https://www2.census.gov/geo/tiger/GENZ2023/shp/cb_2023_us_zcta520_500k.zip",
          [("https://www2.census.gov/geo/tiger/GENZ2023/shp/cb_2023_us_zcta520_500k.zip", 1)]) ∧
    (resolve_first_available ⟨true, none, [], 6⟩ (fun _ _ => true)
        ["https://www2.census.gov/geo/tiger/GENZ2023/shp/cb_2023_us_zcta520_500k.zip"]).2
      ≠ [] := by
  decide

/-- C5 (amended: the no-network guarantee of source resolution holds when a
cache directory is also configured): with offline mode on and a cache
directory set, resolution performs zero probes and returns the first cached
candidate, or OfflineCacheMiss when none is cached; and fetching any
uncached URL in offline mode fails with OfflineFetchDenied after zero
requests. -/
theorem offline_no_network (cfg : NetConfig) (probe : String → Nat → Bool)
    (responses : Nat → HttpOutcome) (url : String)
    (hoff : cfg.offline = true) (hdir : cfg.cacheDir.isSome = true) :
    (∀ urls, (resolve_first_available cfg probe urls).2 = []) ∧
    (∀ urls, (∀ u ∈ urls, cachePathExists cfg u = false) →
      resolve_first_available cfg probe urls = (.error .OfflineCacheMiss, [])) ∧
    (∀ pre u post, (∀ v ∈ pre, cachePathExists cfg v = false) →
      cachePathExists cfg u = true →
      resolve_first_available cfg probe (pre ++ u :: post) = (.ok u, [])) ∧
    (cachePathExists cfg url = false →
      download_to_temp cfg responses url = (.error .OfflineFetchDenied, 0)) := by
  have hcond : (cfg.offline && cfg.cacheDir.isSome) = true := by
    rw [hoff, hdir]; rfl
  refine ⟨?_, ?_, ?_, ?_⟩
  · intro urls
    simp only [resolve_first_available, hcond, if_true]
    cases urls.find? (fun u => cachePathExists cfg u) <;> rfl
  · intro urls hnone
    have hfind : urls.find? (fun u => cachePathExists cfg u) = none :=
      List.find?_eq_none.mpr (fun u hu => by simp [hnone u hu])
    simp [resolve_first_available, hcond, hfind]
  · intro pre u post hpre hu
    have hfind : (pre ++ u :: post).find? (fun v => cachePathExists cfg v)
        = some u :=
      find?_append_first _ pre post u hpre hu
    simp [resolve_first_available, hcond, hfind]
  · intro hc
    simp [download_to_temp, hc, hoff]

theorem offline_no_network_witness :
    resolve_first_available ⟨true, some "cache", ["cb_b.zip"], 6⟩
        (fun _ _ => true) ["https://x/cb_a.zip", "https://x/cb_b.zip"]
      = (.ok "https://x/cb_b.zip", []) :=
  (offline_no_network ⟨true, some "cache", ["cb_b.zip"], 6⟩ (fun _ _ => true)
      (fun _ => .status 200) "u" rfl rfl).2.2.1
    ["https://x/cb_a.zip"] "https://x/cb_b.zip" [] (by decide) (by decide)

/-! ## Claims about the join engine (C2, C3) -/

/-- With pairwise-distinct keys, filtering an association list by one key
yields at most the entry `find?` returns. -/
theorem filter_key_of_nodup (c : List (String × List (Option ℚ))) (k : String)
    (hnd : (c.map Prod.fst).Nodup) :
    c.filter (fun r => r.1 == k)
      = match c.find? (fun r => r.1 == k) with
        | some m => [m]
        | none => [] := by
  induction c with
  | nil => simp
  | cons x t ih =>
    rw [List.map_cons, List.nodup_cons] at hnd
    by_cases hx : x.1 = k
    · have ht : t.filter (fun r => r.1 == k) = [] := by
        refine List.filter_eq_nil_iff.mpr (fun r hr => ?_)
        simp only [beq_iff_eq]
        intro hrk
        exact hnd.1 (by rw [hx, ← hrk]; exact List.mem_map_of_mem Prod.fst hr)
      simp [List.filter_cons, List.find?_cons, hx, ht]
    · simp [List.filter_cons, List.find?_cons, hx, ih hnd.2]

/-- Closed form of the left merge when the CSV keys are pairwise distinct:
one output row per geometry row, carrying the unique matching CSV row's
attributes or all-NaN. -/
theorem mergeLeft_nodup_eq {γ : Type} (ncols : Nat) (g : List (String × γ))
    (c : List (String × List (Option ℚ)))
    (hnd : (c.map Prod.fst).Nodup) :
    mergeLeft ncols g c = g.map (fun gr =>
      (gr, match c.find? (fun r => r.1 == gr.1) with
           | some m => m.2
           | none => List.replicate ncols none)) := by
  induction g with
  | nil => rfl
  | cons gr t ih =>
    show (match c.filter (fun r => r.1 == gr.1) with
      | [] => [(gr, List.replicate ncols none)]
      | ms => ms.map (fun m => (gr, m.2))) ++ mergeLeft ncols t c = _
    rw [filter_key_of_nodup c gr.1 hnd, ih, List.map_cons]
    cases hfind : c.find? (fun r => r.1 == gr.1) <;> simp [hfind]

/-- C2 counterexample: with two CSV rows sharing one key, the left merge
emits two output rows for a single geometry row — not exactly one row per
geometry row. -/
theorem mergeLeft_duplicate_key_counterexample :
    (mergeLeft 1 [("12345", "geom")]
        [("12345", [some 1]), ("12345", [some 2])]).length = 2 ∧
    (mergeLeft 1 [("12345", "geom")]
        [("12345", [some 1]), ("12345", [some 2])]).length ≠ 1 := by
  decide

/-- C2 (amended: provided the CSV carries at most one row per join key):
the merge output has exactly one row per geometry row, in order; a geometry
row with no matching CSV key carries NaN in every CSV attribute column; a
CSV row whose key matches no geometry row contributes nothing (every output
row is a geometry row). -/
theorem mergeLeft_preserves_geometry {γ : Type} (ncols : Nat)
    (g : List (String × γ)) (c : List (String × List (Option ℚ)))
    (hnd : (c.map Prod.fst).Nodup) :
    (mergeLeft ncols g c).length = g.length ∧
    (mergeLeft ncols g c).map Prod.fst = g ∧
    mergeLeft ncols g c = g.map (fun gr =>
      (gr, match c.find? (fun r => r.1 == gr.1) with
           | some m => m.2
           | none => List.replicate ncols none)) := by
  have h := mergeLeft_nodup_eq ncols g c hnd
  refine ⟨by rw [h]; simp, ?_, h⟩
  rw [h, List.map_map]
  show List.map id g = g
  exact List.map_id g

theorem mergeLeft_preserves_geometry_witness :
    mergeLeft 1 [("a", "g1"), ("b", "g2"), ("c", "g3")] [("b", [some 5])]
      = [(("a", "g1"), [none]), (("b", "g2"), [some 5]),
         (("c", "g3"), [none])] := by
  have h := (mergeLeft_preserves_geometry 1
    [("a", "g1"), ("b", "g2"), ("c", "g3")] [("b", [some 5])] (by decide)).2.2
  rw [h]; decide

/-- A CSV row whose derived key is the empty string matches no geometry row
with a non-empty key: deleting it from the CSV does not change the merge. -/
theorem mergeLeft_empty_key_dropped {γ : Type} (ncols : Nat)
    (g : List (String × γ)) (c1 c2 : List (String × List (Option ℚ)))
    (attrs : List (Option ℚ)) (hg : ∀ gr ∈ g, ¬ gr.1 = "") :
    mergeLeft ncols g (c1 ++ ("", attrs) :: c2)
      = mergeLeft ncols g (c1 ++ c2) := by
  induction g with
  | nil => rfl
  | cons gr t ih =>
    have hg1 : ¬ gr.1 = "" := hg gr (List.mem_cons_self gr t)
    have hne : ("" == gr.1) = false :=
      beq_eq_false_iff_ne.mpr (fun h => hg1 h.symm)
    have hfil : (c1 ++ ("", attrs) :: c2).filter (fun r => r.1 == gr.1)
        = (c1 ++ c2).filter (fun r => r.1 == gr.1) := by
      rw [List.filter_append, List.filter_append, List.filter_cons]
      simp [hne]
    show (match (c1 ++ ("", attrs) :: c2).filter (fun r => r.1 == gr.1) with
      | [] => [(gr, List.replicate ncols none)]
      | ms => ms.map (fun m => (gr, m.2)))
        ++ mergeLeft ncols t (c1 ++ ("", attrs) :: c2) = _
    rw [hfil, ih (fun v hv => hg v (List.mem_cons_of_mem gr hv))]
    rfl

/-- There is a digit in the string iff `dropWhile` past the non-digits
leaves something. -/
theorem dropWhile_head_false {α : Type} (p : α → Bool) :
    ∀ (l : List α) (x : α) (xs : List α),
      l.dropWhile p = x :: xs → p x = false := by
  intro l
  induction l with
  | nil => intro x xs h; cases h
  | cons a t ih =>
    intro x xs h
    rw [List.dropWhile_cons] at h
    by_cases ha : p a = true
    · rw [if_pos ha] at h
      exact ih x xs h
    · rw [if_neg ha] at h
      cases h
      exact Bool.not_eq_true _ |>.mp ha

/-- C3: for each geography level of the table, the key normalizer extracts
the first maximal run of digits from the raw value and left-zero-pads it to
the level's fixed width (state 2, county 5, place 7, county-subdivision 10,
tract 11, block-group 12, zcta 5); a value with no digits normalizes to the
empty string (no error is raised), and an empty-string key matches no
geometry row in the join. -/
theorem csv_key_normalization (lvl : String) (w : Nat)
    (hlw : (lvl, w) ∈ [("state", 2), ("county", 5), ("place", 7),
      ("subcounty", 10), ("tract", 11), ("bg", 12), ("zcta", 5)])
    (v : String) :
    levelWidth lvl = some w ∧
    ((∀ ch ∈ v.data, ch.isDigit = false) → normalizeKeyValue lvl v = "") ∧
    ((∃ ch ∈ v.data, ch.isDigit = true) →
      ∃ pre run post, v.data = pre ++ run ++ post ∧ run ≠ [] ∧
        (∀ ch ∈ pre, ch.isDigit = false) ∧
        (∀ ch ∈ run, ch.isDigit = true) ∧
        (∀ ch, post.head? = some ch → ch.isDigit = false) ∧
        normalizeKeyValue lvl v = zfill w (String.mk run)) ∧
    (∀ {γ : Type} (ncols : Nat) (g : List (String × γ))
        (c1 c2 : List (String × List (Option ℚ))) (attrs : List (Option ℚ)),
      (∀ gr ∈ g, ¬ gr.1 = "") →
      mergeLeft ncols g (c1 ++ ("", attrs) :: c2)
        = mergeLeft ncols g (c1 ++ c2)) := by
  have hwidth : levelWidth lvl = some w := by fin_cases hlw <;> rfl
  refine ⟨hwidth, ?_, ?_, ?_⟩
  · intro hnod
    have hdrop : v.data.dropWhile (fun ch => !ch.isDigit) = [] :=
      List.dropWhile_eq_nil_iff.mpr (fun ch hch => by simp [hnod ch hch])
    have hext : extractDigits v = none := by
      simp only [extractDigits]
      rw [hdrop]
    simp [normalizeKeyValue, hwidth, hext]
  · intro hdig
    have hdrop : v.data.dropWhile (fun ch => !ch.isDigit) ≠ [] := by
      intro hnil
      obtain ⟨ch, hch, hd⟩ := hdig
      have := List.dropWhile_eq_nil_iff.mp hnil ch hch
      simp [hd] at this
    obtain ⟨x, xs, hrest⟩ := List.exists_cons_of_ne_nil hdrop
    refine ⟨v.data.takeWhile (fun ch => !ch.isDigit),
      (x :: xs).takeWhile Char.isDigit,
      (x :: xs).dropWhile Char.isDigit, ?_, ?_, ?_, ?_, ?_, ?_⟩
    · rw [List.append_assoc, List.takeWhile_append_dropWhile, ← hrest,
        List.takeWhile_append_dropWhile]
    · have hx : Char.isDigit x = true := by
        have := dropWhile_head_false (fun ch => !ch.isDigit) v.data x xs hrest
        simpa using this
      simp [List.takeWhile_cons, hx]
    · intro ch hch
      have := List.mem_takeWhile_imp hch
      simpa using this
    · intro ch hch
      exact List.mem_takeWhile_imp hch
    · intro ch hch
      obtain ⟨ys, hys⟩ : ∃ ys, (x :: xs).dropWhile Char.isDigit = ch :: ys := by
        cases hcase : (x :: xs).dropWhile Char.isDigit with
        | nil => rw [hcase] at hch; cases hch
        | cons z zs =>
          rw [hcase] at hch
          injection hch with h1
          exact ⟨zs, by rw [h1]⟩
      exact dropWhile_head_false Char.isDigit (x :: xs) ch ys hys
    · have hext : extractDigits v
          = some (String.mk ((x :: xs).takeWhile Char.isDigit)) := by
        simp only [extractDigits]
        rw [hrest]
      simp [normalizeKeyValue, hwidth, hext]
  · intro γ ncols g c1 c2 attrs hg
    exact mergeLeft_empty_key_dropped ncols g c1 c2 attrs hg

theorem csv_key_normalization_witness :
    levelWidth "place" = some 7 ∧ normalizeKeyValue "place" "$$$" = "" := by
  have h := csv_key_normalization "place" 7 (by decide) "$$$"
  exact ⟨h.1, h.2.1 (by decide)⟩

/-! ## Claims about the derived rates (C4) -/

/-- Looking up the column just written. -/
theorem getCol_setCol_self (df : Table) (n : String) (v : Col) :
    getCol (setCol df n v) n = some v := by
  induction df with
  | nil => simp [setCol, getCol]
  | cons p t ih =>
    by_cases h : p.1 = n
    · simp [setCol, getCol, h]
    · have hb : (p.1 == n) = false := beq_eq_false_iff_ne.mpr h
      simp only [setCol, hb, Bool.false_eq_true, if_false]
      simp only [getCol, List.find?_cons, hb] at ih ⊢
      exact ih

/-- Writing one column leaves the others unchanged. -/
theorem getCol_setCol_ne (df : Table) (n m : String) (v : Col)
    (hnm : ¬ n = m) : getCol (setCol df n v) m = getCol df m := by
  induction df with
  | nil =>
    have hb : (n == m) = false := beq_eq_false_iff_ne.mpr hnm
    simp [setCol, getCol, hb]
  | cons p t ih =>
    by_cases h : p.1 = n
    · have hb : (n == m) = false := beq_eq_false_iff_ne.mpr hnm
      have hb2 : (p.1 == m) = false :=
        beq_eq_false_iff_ne.mpr (by rw [h]; exact hnm)
      simp [setCol, getCol, h, List.find?_cons, hb, hb2]
    · have hbn : (p.1 == n) = false := beq_eq_false_iff_ne.mpr h
      simp only [setCol, hbn, Bool.false_eq_true, if_false]
      simp only [getCol, List.find?_cons] at ih ⊢
      by_cases h2 : p.1 = m
      · have hb2 : (p.1 == m) = true := beq_iff_eq.mpr h2
        simp [hb2]
      · have hb2 : (p.1 == m) = false := beq_eq_false_iff_ne.mpr h2
        simp [hb2, ih]

/-- A column that lookup finds is present. -/
theorem hasCol_true_of_getCol_some (df : Table) (n : String) (v : Col)
    (h : getCol df n = some v) : hasCol df n = true := by
  unfold getCol at h
  unfold hasCol
  cases hf : df.find? (fun p => p.1 == n) with
  | none => simp [hf] at h
  | some p => rfl

/-- A cell of `(num / hh).where(hh > 0)` at a zero-household row is NaN. -/
theorem zipWith_div_zero_row (num hh : Col) (hlen : num.length = hh.length)
    (i : Nat) (hzero : hh[i]? = some (some 0)) :
    (List.zipWith divWherePos num hh)[i]? = some none := by
  have hi : i < hh.length := by
    by_contra hge
    rw [List.getElem?_eq_none (Nat.le_of_not_lt hge)] at hzero
    cases hzero
  have hilt : i < num.length := by omega
  have ha : num[i]? = some (num.get ⟨i, hilt⟩) := by
    rw [List.getElem?_eq_getElem hilt]
    rfl
  rw [List.getElem?_zipWith', ha, hzero]
  simp [divWherePos]

/-- C4: the derived-rate step adds the three columns `Below_ALICE_Rate`,
`Poverty_Rate` and `ALICE_Rate` when all of `Households`,
`Poverty Households` and `ALICE Households` are present, and returns the
table unchanged otherwise; every rate cell divides only where the household
count is strictly positive, so a zero-household row yields NaN in all three
rates and no divide-by-zero fault occurs. -/
theorem compute_rates_spec (df : Table) :
    (¬(hasCol df "Households" = true ∧ hasCol df "Poverty Households" = true ∧
        hasCol df "ALICE Households" = true) → compute_rates df = df) ∧
    (∀ hh pov al, getCol df "Households" = some hh →
      getCol df "Poverty Households" = some pov →
      getCol df "ALICE Households" = some al →
      getCol (compute_rates df) "Below_ALICE_Rate"
          = some (List.zipWith divWherePos (List.zipWith addOpt pov al) hh) ∧
      getCol (compute_rates df) "Poverty_Rate"
          = some (List.zipWith divWherePos pov hh) ∧
      getCol (compute_rates df) "ALICE_Rate"
          = some (List.zipWith divWherePos al hh) ∧
      (pov.length = hh.length → al.length = hh.length →
        ∀ i : Nat, hh[i]? = some (some 0) →
          (List.zipWith divWherePos (List.zipWith addOpt pov al) hh)[i]?
              = some none ∧
          (List.zipWith divWherePos pov hh)[i]? = some none ∧
          (List.zipWith divWherePos al hh)[i]? = some none)) := by
  constructor
  · intro hnot
    by_cases hall : (hasCol df "Households" && hasCol df "Poverty Households"
        && hasCol df "ALICE Households") = true
    · exact absurd (by simpa [Bool.and_eq_true, and_assoc] using hall) hnot
    · unfold compute_rates
      rw [if_neg hall]
  · intro hh pov al hH hP hA
    have hall : (hasCol df "Households" && hasCol df "Poverty Households"
        && hasCol df "ALICE Households") = true := by
      rw [hasCol_true_of_getCol_some df _ _ hH,
        hasCol_true_of_getCol_some df _ _ hP,
        hasCol_true_of_getCol_some df _ _ hA]
      rfl
    have hrw : compute_rates df
        = setCol (setCol (setCol df "Below_ALICE_Rate"
            (List.zipWith divWherePos (List.zipWith addOpt pov al) hh))
            "Poverty_Rate" (List.zipWith divWherePos pov hh))
            "ALICE_Rate" (List.zipWith divWherePos al hh) := by
      unfold compute_rates
      rw [if_pos hall, hH, hP, hA]
      rfl
    refine ⟨?_, ?_, ?_, ?_⟩
    · rw [hrw, getCol_setCol_ne _ _ _ _ (by decide),
        getCol_setCol_ne _ _ _ _ (by decide), getCol_setCol_self]
    · rw [hrw, getCol_setCol_ne _ _ _ _ (by decide), getCol_setCol_self]
    · rw [hrw, getCol_setCol_self]
    · intro hlp hla i hzero
      have hblen : (List.zipWith addOpt pov al).length = hh.length := by
        rw [List.length_zipWith, hlp, hla, Nat.min_self]
      exact ⟨zipWith_div_zero_row _ hh hblen i hzero,
        zipWith_div_zero_row _ hh hlp i hzero,
        zipWith_div_zero_row _ hh hla i hzero⟩

theorem compute_rates_spec_witness :
    getCol (compute_rates [("Households", [some 100, some 0]),
        ("Poverty Households", [some 10, some 3]),
        ("ALICE Households", [some 20, some 4])]) "Below_ALICE_Rate"
      = some [some ((3 : ℚ)/10), none] ∧
    getCol (compute_rates [("Households", [some 100, some 0]),
        ("Poverty Households", [some 10, some 3]),
        ("ALICE Households", [some 20, some 4])]) "Poverty_Rate"
      = some [some ((1 : ℚ)/10), none] ∧
    getCol (compute_rates [("Households", [some 100, some 0]),
        ("Poverty Households", [some 10, some 3]),
        ("ALICE Households", [some 20, some 4])]) "ALICE_Rate"
      = some [some ((1 : ℚ)/5), none] := by
  have h := (compute_rates_spec [("Households", [some 100, some 0]),
    ("Poverty Households", [some 10, some 3]),
    ("ALICE Households", [some 20, some 4])]).2
    [some 100, some 0] [some 10, some 3] [some 20, some 4] rfl rfl rfl
  refine ⟨?_, ?_, ?_⟩
  · rw [h.1]
    norm_num [List.zipWith, addOpt, divWherePos]
  · rw [h.2.1]
    norm_num [List.zipWith, divWherePos]
  · rw [h.2.2.1]
    norm_num [List.zipWith, divWherePos]

/-! ## Claims about best-effort post-processing (C7) -/

/-- C7: the ZCTA spatial-containment filter and the geometry simplification
step swallow every exception: when the attempted operation raises, the
pipeline returns the unfiltered (respectively unsimplified) table instead
of propagating the failure; when it succeeds, its result is used. -/
theorem best_effort_steps_swallow {ρ π σ ε : Type}
    (loadStates : Except ε (List (String × π))) (abbr : String)
    (within : ρ → π → Except ε Bool) (ixErr : ε) (merged : List ρ)
    (simplifyGeom : σ → Except ε σ) (rows : List σ) :
    (∀ e, spatialFilterAttempt loadStates abbr within ixErr merged = .error e →
      prepare_zcta_filter loadStates abbr within ixErr merged = merged) ∧
    (∀ res, spatialFilterAttempt loadStates abbr within ixErr merged = .ok res →
      prepare_zcta_filter loadStates abbr within ixErr merged = res) ∧
    (∀ e, simplifyAllM simplifyGeom rows = .error e →
      trySimplify simplifyGeom rows = rows) ∧
    (∀ res, simplifyAllM simplifyGeom rows = .ok res →
      trySimplify simplifyGeom rows = res) := by
  refine ⟨?_, ?_, ?_, ?_⟩ <;> intro x hx <;>
    simp [prepare_zcta_filter, trySimplify, hx]

theorem best_effort_steps_swallow_witness :
    prepare_zcta_filter (ε := String) (π := Unit) (ρ := Nat)
        (.error "states layer failed to load") "FL"
        (fun _ _ => .ok true) "IndexError" [1, 2, 3] = [1, 2, 3] ∧
    trySimplify (ε := String) (fun (_ : Nat) => .error "TopologyException") [1, 2]
      = [1, 2] :=
  ⟨(best_effort_steps_swallow (ρ := Nat) (σ := Nat)
      (.error "states layer failed to load") "FL" (fun _ _ => .ok true)
      "IndexError" [1, 2, 3] (fun _ => .error "TopologyException") [1, 2]).1
      "states layer failed to load" rfl,
   (best_effort_steps_swallow (ρ := Nat) (π := Unit)
      (.error "states layer failed to load") "FL" (fun _ _ => .ok true)
      "IndexError" [1, 2, 3] (fun _ => .error "TopologyException") [1, 2]).2.2.1
      "TopologyException" rfl⟩

end UCT
